import Mathlib

/-!
# Verification of the mia-app market-intelligence pipeline

A shallow embedding of the state/persistence model, the recovery-oriented
JSON parser, the LLM-driven analysis stages' fallback logic, the RAG query
handler, the chart-generation stage and the pipeline orchestrator of
`api/agent_logic.py`, together with proofs about the spec's claims.

Pure Python values (JSON dictionaries) are modelled by an inductive `Json`
type; Python strings by `String`; failure of collaborators (LLM calls,
credential resolution, file IO) by explicit `Except`/`Option` parameters,
since those are external capabilities in the spec's scoping.
-/

namespace MiaApp

/-- JSON values as handled by Python's `json` module in `agent_logic.py`.
Numbers are modelled as integers (all numeric literals relevant to the
pipeline's defaults and to the claims are integral; `satisfaction_score`
values such as 7.8 are modelled by the pair numerator/10 via `numq`). -/
inductive Json where
  | null : Json
  | bool (b : Bool) : Json
  | num (n : Int) : Json
  /-- a non-integral JSON number `n/10`, enough for the 7.8 / 8.2 / 8.5
  satisfaction scores appearing in the customer-insight defaults -/
  | numq (tenths : Int) : Json
  | str (s : String) : Json
  | arr (elems : List Json) : Json
  | obj (fields : List (String × Json)) : Json
deriving Repr

/-- Python `isinstance(x, dict)`. -/
def Json.isDict : Json → Bool
  | .obj _ => true
  | _ => false

/-- Python `x == s` for a string literal `s`: true exactly when `x` is the
string `s` (comparison of a non-string JSON value with a string is `False`). -/
def Json.eqStr : Json → String → Bool
  | .str t, s => t == s
  | _, _ => false

/-- Python `d.get(key, default)` on a JSON dictionary: the value bound to the
first occurrence of `key`, or `default` when `key` is absent or the value is
not a dictionary. -/
def Json.get (j : Json) (key : String) (dflt : Json) : Json :=
  match j with
  | .obj fields =>
    match fields.find? (fun kv => kv.1 == key) with
    | some kv => kv.2
    | none => dflt
  | _ => dflt

/-! ## Python string primitives used by the validators and the parser -/

/-- The characters matched by Python's `\s` and removed by `str.strip()`
(ASCII whitespace: space, tab, newline, carriage return, vertical tab,
form feed). -/
def pyIsSpace (c : Char) : Bool :=
  c == ' ' || c == '\t' || c == '\n' || c == '\r' || c == '\x0b' || c == '\x0c'

/-- `str.strip()` on the character list. -/
def pyStripList (l : List Char) : List Char :=
  ((l.dropWhile pyIsSpace).reverse.dropWhile pyIsSpace).reverse

/-- Python `str.strip()`. -/
def pyStrip (s : String) : String := ⟨pyStripList s.data⟩

/-! ## Field validators of `MarketIntelligenceState` (agent_logic.py 332-346) -/

/-- The character class `[a-zA-Z0-9\s-]` of the market-domain regex. -/
def domainChar (c : Char) : Bool :=
  c.isAlpha || c.isDigit || pyIsSpace c || c == '-'

/-- `validate_market_domain_value` (agent_logic.py 332-339): rejects the empty
string, rejects any string with a character outside `[a-zA-Z0-9\s-]`
(the check `re.match(r'^[a-zA-Z0-9\s-]+$', v)` succeeds exactly when the
string is non-empty and all its characters are in the class; the final-newline
subtlety of `$` is absorbed because `\n` is itself in the class), and returns
the `strip()`ped value. -/
def validate_market_domain_value (v_domain : String) : Except String String :=
  if v_domain = "" then
    .error "Market domain cannot be empty."
  else if !(v_domain.data.all domainChar) then
    .error "Market domain must contain only letters, numbers, spaces, or hyphens."
  else
    .ok (pyStrip v_domain)

/-- `validate_query_value` (agent_logic.py 341-346): when a non-empty query is
given and its stripped form is shorter than 3 characters, reject; otherwise
return the stripped query (or `none` when the query is `None` or empty,
mirroring Python truthiness of `if v_query`). -/
def validate_query_value (v_query : Option String) : Except String (Option String) :=
  match v_query with
  | none => .ok none
  | some s =>
    if s != "" && (pyStrip s).length < 3 then
      .error "Query must be at least 3 characters long if provided."
    else
      .ok (if s != "" then some (pyStrip s) else none)

/-- A Python-dict value stored in `download_files`.  The field is declared
`Dict[str, str]`, but because pydantic's `validate_assignment` does not see
in-place mutation of the dictionary, the running code can (and does, at
agent_logic.py 1946) store a list of paths as a value, so the dynamic value
type must admit both shapes. -/
inductive FileVal where
  | path (p : String) : FileVal
  | pathList (ps : List String) : FileVal
deriving Repr, DecidableEq

/-- Is this `download_files` value a single file-path string? -/
def FileVal.isSinglePath : FileVal → Bool
  | .path _ => true
  | .pathList _ => false

/-- The `MarketIntelligenceState` pydantic model (agent_logic.py 312-330),
with `Dict[str, Any]` items modelled as `Json` and `download_files` as an
association list of dynamically-typed values. -/
structure MarketIntelligenceState where
  raw_news_data : List Json := []
  competitor_data : List Json := []
  financial_data : List Json := []
  market_trends : List Json := []
  opportunities : List Json := []
  strategic_recommendations : List Json := []
  customer_insights : List Json := []
  market_domain : String := "General Technology"
  query : Option String := none
  user_id : Option String := none
  question : Option String := none
  query_response : Option String := none
  report_template : Option String := none
  vector_store_path : Option String := none
  state_id : String
  report_dir : Option String := none
  chart_paths : List String := []
  download_files : List (String × FileVal) := []
deriving Repr

/-- Construction of a `MarketIntelligenceState`, running the two field
validators as pydantic does; `state_id` stands for the freshly drawn
`uuid4()` of the `default_factory`. -/
def mkState (market_domain : String) (query : Option String)
    (question : Option String) (user_id : Option String)
    (state_id : String) : Except String MarketIntelligenceState := do
  let d ← validate_market_domain_value market_domain
  let q ← validate_query_value query
  .ok { market_domain := d, query := q, question := question,
        user_id := user_id, state_id := state_id }

/-! ## State persistence (agent_logic.py 359-392 and 685-702)

The `states` sqlite table has schema
`(id PRIMARY KEY, user_id, market_domain, query, state_data, created_at)`;
`save_state` performs `INSERT OR REPLACE` keyed on `id` and `load_state`
performs `SELECT state_data FROM states WHERE id = ?` followed by
deserialization.  Serialization (`model_dump_json`) and deserialization
(the pydantic constructor on `json.loads` output) are collaborator
capabilities and are passed in as functions. -/

/-- One row of the `states` table. -/
structure StateRow where
  id : String
  user_id : Option String
  market_domain : String
  query : Option String
  state_data : String
  created_at : String
deriving Repr

/-- `save_state` (agent_logic.py 359-392): `INSERT OR REPLACE` keyed by the
state identifier — any existing row with the same `id` is replaced by the new
row.  `ser` stands for `model_dump_json`, `created_at` for the
`datetime.now(timezone.utc).isoformat()` timestamp.  (An sqlite error is
caught and leaves the table unchanged; this models the successful write.) -/
def save_state (ser : MarketIntelligenceState → String) (created_at : String)
    (state_obj : MarketIntelligenceState) (db : List StateRow) : List StateRow :=
  db.filter (fun r => r.id != state_obj.state_id) ++
    [{ id := state_obj.state_id
       user_id := state_obj.user_id
       market_domain := state_obj.market_domain
       query := state_obj.query
       state_data := ser state_obj
       created_at := created_at }]

/-- `load_state` (agent_logic.py 685-702): select the row with the given
identifier and deserialize its `state_data` (deserialization failure is
caught and yields `None`, hence `deser` returns an `Option`). -/
def load_state (deser : String → Option MarketIntelligenceState)
    (state_id_to_load : String) (db : List StateRow) : Option MarketIntelligenceState :=
  match db.find? (fun r => r.id == state_id_to_load) with
  | some row => deser row.state_data
  | none => none

/-- A sequence of saves, each with its own timestamp, applied in order. -/
def applySaves (ser : MarketIntelligenceState → String)
    (db : List StateRow) (saves : List (String × MarketIntelligenceState)) : List StateRow :=
  saves.foldl (fun d p => save_state ser p.1 p.2 d) db

/-- The table holds at most one row per identifier. -/
def atMostOnePerId (db : List StateRow) : Prop :=
  ∀ i : String, (db.filter (fun r => r.id == i)).length ≤ 1

/-! ### Auxiliary list lemmas for the persistence proofs -/

lemma find?_append_of_none {α} (p : α → Bool) (l₁ l₂ : List α) (h : l₁.find? p = none) :
    (l₁ ++ l₂).find? p = l₂.find? p := by
  induction l₁ with
  | nil => rfl
  | cons a t ih =>
    cases hp : p a with
    | true => simp [List.find?_cons, hp] at h
    | false =>
      simp only [List.find?_cons, hp] at h
      simpa [List.find?_cons, hp] using ih h

lemma find?_filter_of_imp {α} (p q : α → Bool) (h : ∀ a, p a = true → q a = true) :
    ∀ l : List α, (l.filter q).find? p = l.find? p := by
  intro l
  induction l with
  | nil => rfl
  | cons a t ih =>
    cases hq : q a with
    | true =>
      cases hp : p a with
      | true => simp [List.filter_cons, hq, List.find?_cons, hp]
      | false => simp [List.filter_cons, hq, List.find?_cons, hp, ih]
    | false =>
      have hp : p a = false := by
        cases hpa : p a with
        | true => exact absurd (h a hpa) (by simp [hq])
        | false => rfl
      simp [List.filter_cons, hq, List.find?_cons, hp, ih]

/-! ### Persistence properties -/

/-- A single save preserves uniqueness of identifiers in the table. -/
lemma atMostOnePerId_save (ser : MarketIntelligenceState → String) (t : String)
    (s : MarketIntelligenceState) (db : List StateRow) (h : atMostOnePerId db) :
    atMostOnePerId (save_state ser t s db) := by
  intro i
  unfold save_state
  rw [List.filter_append]
  by_cases hi : s.state_id = i
  · have h₁ : (db.filter (fun r => r.id != s.state_id)).filter (fun r => r.id == i) = [] := by
      rw [List.filter_eq_nil_iff]
      intro r hr
      have := List.of_mem_filter hr
      simp only [bne_iff_ne, ne_eq] at this
      simp [hi ▸ this]
    simp [h₁, hi]
  · have h₂ : (List.filter (fun r => r.id == i)
        [({ id := s.state_id, user_id := s.user_id, market_domain := s.market_domain,
            query := s.query, state_data := ser s, created_at := t } : StateRow)]) = [] := by
      simp [hi]
    rw [h₂, List.append_nil]
    calc ((db.filter (fun r => r.id != s.state_id)).filter (fun r => r.id == i)).length
        ≤ (db.filter (fun r => r.id == i)).length :=
          (((List.filter_sublist db).filter _)).length_le
      _ ≤ 1 := h i

/-- Every sequence of saves preserves uniqueness of identifiers. -/
lemma atMostOnePerId_applySaves (ser : MarketIntelligenceState → String)
    (saves : List (String × MarketIntelligenceState)) :
    ∀ db : List StateRow, atMostOnePerId db → atMostOnePerId (applySaves ser db saves) := by
  induction saves with
  | nil => intro db h; exact h
  | cons p rest ih =>
    intro db h
    exact ih _ (atMostOnePerId_save ser p.1 p.2 db h)

/-- Loading the identifier just saved retrieves exactly the serialized snapshot
of the saved state. -/
lemma load_state_save_state_self (ser : MarketIntelligenceState → String)
    (deser : String → Option MarketIntelligenceState) (t : String)
    (s : MarketIntelligenceState) (db : List StateRow) :
    load_state deser s.state_id (save_state ser t s db) = deser (ser s) := by
  unfold load_state save_state
  have hnone : (db.filter (fun r => r.id != s.state_id)).find?
      (fun r => r.id == s.state_id) = none := by
    rw [List.find?_eq_none]
    intro r hr
    have := List.of_mem_filter hr
    simpa using this
  rw [find?_append_of_none _ _ _ hnone]
  simp [List.find?_cons]

/-- C2: for every state and every sequence of saves, saving upserts by
identifier, so the store keeps at most one row per identifier, and loading by
an identifier right after a save of a state with that identifier returns that
state (the most recent save) — a round trip through the serialized snapshot,
assuming deserialization inverts serialization on the saved state. -/
theorem save_upsert_load_most_recent
    (ser : MarketIntelligenceState → String)
    (deser : String → Option MarketIntelligenceState)
    (db : List StateRow) (prev : List (String × MarketIntelligenceState))
    (t : String) (s : MarketIntelligenceState)
    (hdb : atMostOnePerId db) (hround : deser (ser s) = some s) :
    atMostOnePerId (applySaves ser db (prev ++ [(t, s)])) ∧
    load_state deser s.state_id (applySaves ser db (prev ++ [(t, s)])) = some s := by
  have happ : applySaves ser db (prev ++ [(t, s)]) =
      save_state ser t s (applySaves ser db prev) := by
    unfold applySaves
    rw [List.foldl_append]
    rfl
  constructor
  · rw [happ]
    exact atMostOnePerId_save _ _ _ _ (atMostOnePerId_applySaves ser prev db hdb)
  · rw [happ, load_state_save_state_self]
    exact hround

theorem save_upsert_load_most_recent_witness :
    load_state (fun blob => some { state_id := blob }) "s1"
      (applySaves (fun st => st.state_id) []
        [("t0", { state_id := "a0" }), ("t1", { state_id := "s1" })]) =
      some { state_id := "s1" } :=
  (save_upsert_load_most_recent (fun st => st.state_id)
    (fun blob => some { state_id := blob })
    [] [("t0", { state_id := "a0" })] "t1" { state_id := "s1" }
    (by intro i; simp [atMostOnePerId]) rfl).2

/-! ## The recovery-oriented JSON parser (agent_logic.py 1266-1297)

`llm_json_parser_robust` first applies
`re.sub(r"\x60\x60\x60json\s*([\s\S]*?)\s*\x60\x60\x60", r"\1", s.strip(), flags=IGNORECASE)`,
then locates the first `\x7b` or `[`, scans forward counting nested brackets of
that type until the count returns to zero, and feeds the delimited substring
to `json.loads`; each failure path returns the caller-supplied default, or an
empty list when none was given. -/

/-- The backtick character. -/
def btick : Char := '\x60'

/-- Does the input start with the fence opener: three backticks followed by
"json", case-insensitively? -/
def fenceOpenHead : List Char → Bool
  | a :: b :: c :: d :: e :: f :: g :: _ =>
    a == '\x60' && b == '\x60' && c == '\x60' &&
      d.toLower == 'j' && e.toLower == 's' && f.toLower == 'o' && g.toLower == 'n'
  | _ => false

/-- Case-insensitive match of the literal fence opener (three backticks
followed by "json"); on success returns the remaining characters. -/
def fenceOpen (l : List Char) : Option (List Char) :=
  if fenceOpenHead l then some (l.drop 7) else none

/-- Does the input start with a closing triple backtick? -/
def fenceCloseHead : List Char → Bool
  | a :: b :: c :: _ => a == '\x60' && b == '\x60' && c == '\x60'
  | _ => false

/-- Split at the first closing triple backtick: returns the content before it
and the characters after it.  This realises the lazy group `([\s\S]*?)`
followed by the closing fence of the substitution pattern. -/
def splitAtFenceClose : List Char → Option (List Char × List Char)
  | [] => none
  | c :: rest =>
    if fenceCloseHead (c :: rest) then some ([], rest.drop 2)
    else
      match splitAtFenceClose rest with
      | some (content, after) => some (c :: content, after)
      | none => none

/-- Remove trailing Python-whitespace characters (the greedy `\s*` preceding
the closing fence of the substitution pattern). -/
def rstripWS (l : List Char) : List Char :=
  (l.reverse.dropWhile pyIsSpace).reverse

/-- One left-to-right pass of the fence-removing substitution: wherever
`\x60\x60\x60json` (case-insensitive) is followed by a later `\x60\x60\x60`, the whole fenced
region is replaced by its content with surrounding whitespace stripped
(greedy leading `\s*`, lazy body, greedy trailing `\s*`), and scanning resumes
after the closing fence, exactly as `re.sub` resumes after a match. -/
def stripFencesAux : Nat → List Char → List Char
  | 0, l => l
  | _ + 1, [] => []
  | fuel + 1, c :: rest =>
    match fenceOpen (c :: rest) with
    | some afterOpen =>
      match splitAtFenceClose (afterOpen.dropWhile pyIsSpace) with
      | some (content, afterClose) => rstripWS content ++ stripFencesAux fuel afterClose
      | none => c :: stripFencesAux fuel rest
    | none => c :: stripFencesAux fuel rest

/-- The fence-removing `re.sub` call of the parser. -/
def stripFences (s : String) : String :=
  ⟨stripFencesAux (s.data.length + 1) s.data⟩

/-- The first JSON start of the cleaned text, mirroring the `find` calls and
index comparison of agent_logic.py 1270-1277: the opening bracket character,
its matching closer, and its index, or `none` when the text has neither a
brace nor a square bracket. -/
def firstJsonStart (l : List Char) : Option (Char × Char × Nat) :=
  let start_brace := l.findIdx? (fun c => c == '\x7b')
  let start_bracket := l.findIdx? (fun c => c == '[')
  match start_brace, start_bracket with
  | none, none => none
  | some b, none => some ('\x7b', '\x7d', b)
  | none, some k => some ('[', ']', k)
  | some b, some k => if b < k then some ('\x7b', '\x7d', b) else some ('[', ']', k)

/-- The `open_count` scan of agent_logic.py 1278-1287: process characters from
the start position, incrementing on the opening character and decrementing on
the matching closer; return the length of the prefix at whose last character
the count returns to zero, or `none` when it never does. -/
def depthScan (openC closeC : Char) : List Char → Int → Option Nat
  | [], _ => none
  | c :: rest, depth =>
    let depth' := if c = openC then depth + 1 else if c = closeC then depth - 1 else depth
    if depth' = 0 then some 1
    else (depthScan openC closeC rest depth').map (· + 1)

/-! ### A model of `json.loads`

JSON whitespace, `null` / `true` / `false`, strings with the single-character
escapes, integer numbers, arrays and objects.  Non-integral numbers and
`\u` escapes are outside the model (no pipeline default and no claim involves
them); inputs using them are rejected by the model parser. -/

/-- JSON whitespace accepted between tokens by `json.loads`. -/
def jsonWs (c : Char) : Bool :=
  c == ' ' || c == '\t' || c == '\n' || c == '\r'

/-- The body of a JSON string after the opening quote: the decoded string and
the characters after the closing quote. -/
def parseJsonStr : List Char → Option (String × List Char)
  | [] => none
  | '"' :: rest => some ("", rest)
  | '\\' :: e :: rest =>
    match
      (if e == '"' then some '"'
       else if e == '\\' then some '\\'
       else if e == '/' then some '/'
       else if e == 'b' then some '\x08'
       else if e == 'f' then some '\x0c'
       else if e == 'n' then some '\n'
       else if e == 'r' then some '\r'
       else if e == 't' then some '\t'
       else none) with
    | some d =>
      match parseJsonStr rest with
      | some (s, after) => some (⟨d :: s.data⟩, after)
      | none => none
    | none => none
  | c :: rest =>
    match parseJsonStr rest with
    | some (s, after) => some (⟨c :: s.data⟩, after)
    | none => none

/-- Decimal digits to a natural number. -/
def digitsToNat (ds : List Char) : Nat :=
  ds.foldl (fun n c => n * 10 + (c.toNat - '0'.toNat)) 0

/-- An integer JSON number at the head of the input. -/
def parseJsonNum (l : List Char) : Option (Int × List Char) :=
  let (neg, l') := match l with
    | '-' :: t => (true, t)
    | _ => (false, l)
  let ds := l'.takeWhile Char.isDigit
  let rest := l'.dropWhile Char.isDigit
  if ds.isEmpty then none
  else
    match rest with
    | '.' :: _ => none
    | 'e' :: _ => none
    | 'E' :: _ => none
    | _ => some (if neg then -(digitsToNat ds : Int) else (digitsToNat ds : Int), rest)

mutual

/-- A JSON value at the head of the input (after skipping whitespace). -/
def parseJsonValue : Nat → List Char → Option (Json × List Char)
  | 0, _ => none
  | fuel + 1, l =>
    match l.dropWhile jsonWs with
    | 'n' :: 'u' :: 'l' :: 'l' :: rest => some (.null, rest)
    | 't' :: 'r' :: 'u' :: 'e' :: rest => some (.bool true, rest)
    | 'f' :: 'a' :: 'l' :: 's' :: 'e' :: rest => some (.bool false, rest)
    | '"' :: rest =>
      match parseJsonStr rest with
      | some (s, after) => some (.str s, after)
      | none => none
    | '[' :: rest => parseJsonArrayItems fuel rest []
    | '\x7b' :: rest => parseJsonObjItems fuel rest []
    | l' =>
      match parseJsonNum l' with
      | some (n, rest) => some (.num n, rest)
      | none => none

/-- Elements of an array after the opening bracket; `acc` holds the elements
parsed so far in reverse. -/
def parseJsonArrayItems : Nat → List Char → List Json → Option (Json × List Char)
  | 0, _, _ => none
  | fuel + 1, l, acc =>
    match l.dropWhile jsonWs, acc with
    | ']' :: rest, [] => some (.arr [], rest)
    | _, _ =>
      match parseJsonValue fuel l with
      | some (v, rest) =>
        match rest.dropWhile jsonWs with
        | ',' :: rest' => parseJsonArrayItems fuel rest' (v :: acc)
        | ']' :: rest' => some (.arr (v :: acc).reverse, rest')
        | _ => none
      | none => none

/-- Members of an object after the opening brace; `acc` holds the members
parsed so far in reverse. -/
def parseJsonObjItems : Nat → List Char → List (String × Json) → Option (Json × List Char)
  | 0, _, _ => none
  | fuel + 1, l, acc =>
    match l.dropWhile jsonWs, acc with
    | '\x7d' :: rest, [] => some (.obj [], rest)
    | '"' :: rest, _ =>
      match parseJsonStr rest with
      | some (k, afterKey) =>
        match afterKey.dropWhile jsonWs with
        | ':' :: afterColon =>
          match parseJsonValue fuel afterColon with
          | some (v, rest') =>
            match rest'.dropWhile jsonWs with
            | ',' :: rest'' => parseJsonObjItems fuel rest'' ((k, v) :: acc)
            | '\x7d' :: rest'' => some (.obj ((k, v) :: acc).reverse, rest'')
            | _ => none
          | none => none
        | _ => none
      | none => none
    | _, _ => none

end

/-- `json.loads`: parse a complete JSON document, requiring only whitespace
after the value. -/
def json_loads (s : String) : Option Json :=
  match parseJsonValue (s.data.length + 1) s.data with
  | some (j, rest) => if (rest.dropWhile jsonWs).isEmpty then some j else none
  | none => none

/-- `llm_json_parser_robust` (agent_logic.py 1266-1297). -/
def llm_json_parser_robust (llm_output_str : String) (default_return_val : Option Json) : Json :=
  let cleaned := stripFences (pyStrip llm_output_str)
  let cl := cleaned.data
  match firstJsonStart cl with
  | none => default_return_val.getD (.arr [])
  | some (openC, closeC, startIdx) =>
    match depthScan openC closeC (cl.drop startIdx) 0 with
    | none => default_return_val.getD (.arr [])
    | some len =>
      match json_loads ⟨(cl.drop startIdx).take len⟩ with
      | some parsed_json => parsed_json
      | none => default_return_val.getD (.arr [])

/-- The extraction part of `llm_json_parser_robust`: `some` of the parsed JSON
on the success path, `none` on each of the three failure paths (no opening
bracket, depth never returning to zero, substring failing to parse). -/
def llm_json_extract (llm_output_str : String) : Option Json :=
  let cleaned := stripFences (pyStrip llm_output_str)
  let cl := cleaned.data
  match firstJsonStart cl with
  | none => none
  | some (openC, closeC, startIdx) =>
    match depthScan openC closeC (cl.drop startIdx) 0 with
    | none => none
    | some len => json_loads ⟨(cl.drop startIdx).take len⟩

/-- The parser is the extraction followed by substitution of the default
(or the empty list when no default was supplied) for extraction failure. -/
lemma llm_json_parser_robust_eq_extract (s : String) (d : Option Json) :
    llm_json_parser_robust s d = (llm_json_extract s).getD (d.getD (.arr [])) := by
  unfold llm_json_parser_robust llm_json_extract
  cases h1 : firstJsonStart (stripFences (pyStrip s)).data with
  | none => simp [h1]
  | some v =>
    obtain ⟨openC, closeC, startIdx⟩ := v
    cases h2 : depthScan openC closeC ((stripFences (pyStrip s)).data.drop startIdx) 0 with
    | none => simp [h1, h2]
    | some len =>
      cases h3 : json_loads ⟨((stripFences (pyStrip s)).data.drop startIdx).take len⟩ with
      | none => simp [h1, h2, h3]
      | some j => simp [h1, h2, h3]

/-! ### The cleaning step only deletes fence markers and whitespace

The substitution and the outer `strip()` never touch brace/bracket
characters, so the subsequence of such characters — hence the first opening
bracket and the bracket-depth behaviour — is the same in the original and the
cleaned text.  The following lemmas make that precise for an arbitrary
character predicate `q` that is false on every character the cleaning step can
delete (backticks, whitespace, and the letters of "json" in either case). -/

lemma filter_dropWhile_of_imp {α} (p q : α → Bool) (h : ∀ a, p a = true → q a = false) :
    ∀ l : List α, (l.dropWhile p).filter q = l.filter q := by
  intro l
  induction l with
  | nil => rfl
  | cons a t ih =>
    cases hp : p a with
    | true => simp [List.dropWhile_cons, hp, List.filter_cons, h a hp, ih]
    | false => simp [List.dropWhile_cons, hp]

lemma filter_rstripWS_of_imp (q : Char → Bool) (h : ∀ c, pyIsSpace c = true → q c = false)
    (l : List Char) : (rstripWS l).filter q = l.filter q := by
  unfold rstripWS
  rw [List.filter_reverse, filter_dropWhile_of_imp pyIsSpace q h,
    List.filter_reverse, List.reverse_reverse]

lemma filter_pyStripList_of_imp (q : Char → Bool) (h : ∀ c, pyIsSpace c = true → q c = false)
    (l : List Char) : (pyStripList l).filter q = l.filter q := by
  unfold pyStripList
  rw [List.filter_reverse, filter_dropWhile_of_imp pyIsSpace q h,
    List.filter_reverse, List.reverse_reverse, filter_dropWhile_of_imp pyIsSpace q h]

/-- Characters that the fence-removing substitution may delete. -/
def fenceDeletable (c : Char) : Bool :=
  c == btick || pyIsSpace c ||
    c.toLower == 'j' || c.toLower == 's' || c.toLower == 'o' || c.toLower == 'n'

lemma fenceOpenHead_decomp {l : List Char} (h : fenceOpenHead l = true) :
    ∃ d e f g t, l = btick :: btick :: btick :: d :: e :: f :: g :: t ∧
      fenceDeletable d = true ∧ fenceDeletable e = true ∧
      fenceDeletable f = true ∧ fenceDeletable g = true ∧ l.drop 7 = t := by
  match l, h with
  | a :: b :: c :: d :: e :: f :: g :: t, h =>
    simp only [fenceOpenHead, Bool.and_eq_true, beq_iff_eq] at h
    obtain ⟨⟨⟨⟨⟨⟨ha, hb⟩, hc⟩, hd⟩, he⟩, hf⟩, hg⟩ := h
    refine ⟨d, e, f, g, t, ?_, ?_, ?_, ?_, ?_, rfl⟩
    · rw [ha, hb, hc]; rfl
    · simp [fenceDeletable, hd]
    · simp [fenceDeletable, he]
    · simp [fenceDeletable, hf]
    · simp [fenceDeletable, hg]

lemma splitAtFenceClose_decomp :
    ∀ l content after, splitAtFenceClose l = some (content, after) →
      l = content ++ btick :: btick :: btick :: after := by
  intro l
  induction l with
  | nil => intro content after h; simp [splitAtFenceClose] at h
  | cons c rest ih =>
    intro content after h
    unfold splitAtFenceClose at h
    by_cases hf : fenceCloseHead (c :: rest) = true
    · rw [if_pos hf] at h
      obtain ⟨h1, h2⟩ := Prod.mk.injEq _ _ _ _ ▸ Option.some.injEq _ _ ▸ h
      match rest, hf with
      | b :: c' :: t, hf =>
        simp only [fenceCloseHead, Bool.and_eq_true, beq_iff_eq] at hf
        obtain ⟨⟨ha, hb⟩, hc⟩ := hf
        subst ha hb hc
        simp only [List.drop] at h2
        rw [← h1, ← h2]
        rfl
    · rw [if_neg hf] at h
      cases hs : splitAtFenceClose rest with
      | none => rw [hs] at h; exact absurd h (by simp)
      | some p =>
        obtain ⟨content', after'⟩ := p
        rw [hs] at h
        simp only [Option.some.injEq, Prod.mk.injEq] at h
        obtain ⟨h1, h2⟩ := h
        rw [← h1, ← h2]
        simpa using congrArg (c :: ·) (ih content' after' hs)

/-- The fence-removing pass preserves the subsequence of characters selected
by any predicate that is false on all deletable characters. -/
lemma filter_stripFencesAux (q : Char → Bool)
    (hdel : ∀ c, fenceDeletable c = true → q c = false) :
    ∀ fuel l, (stripFencesAux fuel l).filter q = l.filter q := by
  have hq : ∀ x, pyIsSpace x = true → q x = false := fun x hx =>
    hdel x (by simp [fenceDeletable, hx])
  have hqb : q btick = false := hdel btick (by simp [fenceDeletable])
  intro fuel
  induction fuel with
  | zero => intro l; rfl
  | succ n ih =>
    intro l
    cases l with
    | nil => rfl
    | cons c rest =>
      unfold stripFencesAux
      cases hfo : fenceOpen (c :: rest) with
      | none => simp only [hfo]; simp [List.filter_cons, ih rest]
      | some afterOpen =>
        cases hsp : splitAtFenceClose (afterOpen.dropWhile pyIsSpace) with
        | none => simp only [hfo, hsp]; simp [List.filter_cons, ih rest]
        | some p =>
          obtain ⟨content, afterClose⟩ := p
          simp only [hfo, hsp]
          have hfh : fenceOpenHead (c :: rest) = true := by
            by_cases h : fenceOpenHead (c :: rest) = true
            · exact h
            · unfold fenceOpen at hfo; rw [if_neg h] at hfo; exact absurd hfo (by simp)
          obtain ⟨d, e, f, g, t, hdecomp, hd, he, hf, hg, hdrop⟩ := fenceOpenHead_decomp hfh
          have hao : afterOpen = t := by
            unfold fenceOpen at hfo
            rw [if_pos hfh] at hfo
            exact (Option.some.injEq _ _ ▸ hfo).symm.trans hdrop
          rw [hao] at hsp
          have hsplit := splitAtFenceClose_decomp _ _ _ hsp
          rw [List.filter_append, filter_rstripWS_of_imp q hq, ih afterClose, hdecomp]
          have htail : List.filter q t = List.filter q content ++ List.filter q afterClose := by
            rw [← filter_dropWhile_of_imp pyIsSpace q hq t, hsplit, List.filter_append]
            simp [List.filter_cons, hqb]
          simp [List.filter_cons, hqb, hdel d hd, hdel e he, hdel f hf, hdel g hg, htail]

/-- Over the whole cleaning step (outer `strip()` followed by the fence
substitution), the selected subsequence is unchanged. -/
lemma filter_cleaned (q : Char → Bool)
    (hdel : ∀ c, fenceDeletable c = true → q c = false) (s : String) :
    (stripFences (pyStrip s)).data.filter q = s.data.filter q := by
  unfold stripFences pyStrip
  rw [filter_stripFencesAux q hdel, filter_pyStripList_of_imp q
    (fun c hc => hdel c (by simp [fenceDeletable, hc]))]

/-- A predicate true only on brace/bracket characters is false on every
character the cleaning step can delete. -/
lemma fenceDeletable_false_of_brackets (q : Char → Bool)
    (hq : ∀ x, q x = true → x = '\x7b' ∨ x = '\x7d' ∨ x = '[' ∨ x = ']') :
    ∀ c, fenceDeletable c = true → q c = false := by
  intro c hc
  cases hqc : q c with
  | false => rfl
  | true =>
    rcases hq c hqc with rfl | rfl | rfl | rfl <;> exact absurd hc (by decide)

/-- The subsequence of brackets of one matching type. -/
def bracketTrace (openC closeC : Char) (l : List Char) : List Char :=
  l.filter (fun x => x == openC || x == closeC)

/-- The prefix before the first index satisfying `p` has no element
satisfying `p`. -/
lemma take_findIdx?_all_false {α} (p : α → Bool) :
    ∀ (l : List α) (i : Nat), l.findIdx? p = some i → ∀ x ∈ l.take i, p x = false := by
  intro l
  induction l with
  | nil => intro i h; simp at h
  | cons a t ih =>
    intro i h
    simp only [List.findIdx?_cons, Nat.zero_add, List.findIdx?_succ] at h
    cases hp : p a with
    | true =>
      rw [hp] at h
      simp at h
      subst h
      intro x hx
      simp at hx
    | false =>
      rw [hp] at h
      simp only [Bool.false_eq_true, if_false, Option.map_eq_some'] at h
      obtain ⟨j, hj, hji⟩ := h
      subst hji
      intro x hx
      rw [List.take_succ_cons] at hx
      rcases List.mem_cons.mp hx with rfl | hx'
      · exact hp
      · exact ih j hj x hx'

/-- Dropping up to the first index satisfying `p` exposes an element
satisfying `p` at the head. -/
lemma drop_findIdx?_head {α} (p : α → Bool) :
    ∀ (l : List α) (i : Nat), l.findIdx? p = some i →
      ∃ a t, l.drop i = a :: t ∧ p a = true := by
  intro l
  induction l with
  | nil => intro i h; simp at h
  | cons x t ih =>
    intro i h
    simp only [List.findIdx?_cons, Nat.zero_add, List.findIdx?_succ] at h
    cases hp : p x with
    | true =>
      rw [hp] at h
      simp at h
      subst h
      exact ⟨x, t, rfl, hp⟩
    | false =>
      rw [hp] at h
      simp only [Bool.false_eq_true, if_false, Option.map_eq_some'] at h
      obtain ⟨j, hj, hji⟩ := h
      subst hji
      simpa only [List.drop_succ_cons] using ih j hj

/-- Dropping to the first occurrence of the opening bracket corresponds, on
the trace, to discarding the leading closing brackets. -/
lemma bracketTrace_drop (o c : Char) (hoc : (o == c) = false) (l : List Char) (i : Nat)
    (hfi : l.findIdx? (fun x => x == o) = some i) :
    bracketTrace o c (l.drop i) = (bracketTrace o c l).dropWhile (fun x => x == c) := by
  have hl : l = l.take i ++ l.drop i := (List.take_append_drop i l).symm
  have htr : bracketTrace o c l =
      bracketTrace o c (l.take i) ++ bracketTrace o c (l.drop i) := by
    unfold bracketTrace
    conv_lhs => rw [hl]
    rw [List.filter_append]
  have hallc : ∀ x ∈ bracketTrace o c (l.take i), (x == c) = true := by
    intro x hx
    obtain ⟨hmem, hcond⟩ := List.mem_filter.mp hx
    have hno : (x == o) = false := take_findIdx?_all_false _ l i hfi x hmem
    simpa [hno] using hcond
  obtain ⟨a, t, hdrop, hpa⟩ := drop_findIdx?_head _ l i hfi
  have ha : a = o := by simpa using hpa
  rw [ha] at hdrop
  rw [htr, List.dropWhile_append]
  have h1 : (bracketTrace o c (l.take i)).dropWhile (fun x => x == c) = [] :=
    List.dropWhile_eq_nil_iff.mpr hallc
  rw [h1]
  simp only [List.isEmpty_nil, if_true]
  rw [hdrop]
  have h2 : bracketTrace o c (o :: t) = o :: bracketTrace o c t := by
    simp [bracketTrace, List.filter_cons]
  rw [h2, List.dropWhile_cons]
  simp [hoc]

/-- The bracket type chosen by `firstJsonStart` is the first brace-or-bracket
character of the text. -/
lemma firstJsonStart_map_fst :
    ∀ l : List Char, (firstJsonStart l).map (fun v => v.1) =
      l.find? (fun x => x == '\x7b' || x == '[') := by
  intro l
  induction l with
  | nil => rfl
  | cons x t ih =>
    unfold firstJsonStart at ih ⊢
    simp only [List.findIdx?_cons, Nat.zero_add, List.findIdx?_succ, List.find?_cons]
    by_cases hb : x = '\x7b'
    · subst hb
      have h2 : ('\x7b' == '[') = false := by decide
      simp only [beq_self_eq_true, if_true, h2, Bool.false_eq_true, if_false, Bool.true_or]
      cases t.findIdx? (fun c => c == '[') <;> simp
    · by_cases hk : x = '['
      · subst hk
        have h1 : ('[' == '\x7b') = false := by decide
        simp only [h1, Bool.false_eq_true, if_false, beq_self_eq_true, if_true, Bool.or_true]
        cases t.findIdx? (fun c => c == '\x7b') <;> simp
      · have h1 : (x == '\x7b') = false := by simp [hb]
        have h2 : (x == '[') = false := by simp [hk]
        simp only [h1, h2, Bool.false_eq_true, if_false, Bool.or_self]
        rw [← ih]
        cases ha : t.findIdx? (fun c => c == '\x7b') <;>
          cases hbb : t.findIdx? (fun c => c == '[') <;>
            simp [ha, hbb, Nat.add_lt_add_iff_right, apply_ite]

/-- The components returned by `firstJsonStart`: a matched bracket pair and
the index of the first occurrence of the opening character. -/
lemma firstJsonStart_shape {l : List Char} {o c : Char} {i : Nat}
    (h : firstJsonStart l = some (o, c, i)) :
    ((o = '\x7b' ∧ c = '\x7d') ∨ (o = '[' ∧ c = ']')) ∧
      l.findIdx? (fun x => x == o) = some i := by
  unfold firstJsonStart at h
  cases hb : l.findIdx? (fun x => x == '\x7b') with
  | none =>
    cases hk : l.findIdx? (fun x => x == '[') with
    | none =>
      simp only [hb, hk] at h
      exact Option.noConfusion h
    | some k =>
      simp only [hb, hk, Option.some.injEq, Prod.mk.injEq] at h
      obtain ⟨ho, hc, hi⟩ := h
      subst ho; subst hc; subst hi
      exact ⟨Or.inr ⟨rfl, rfl⟩, hk⟩
  | some b =>
    cases hk : l.findIdx? (fun x => x == '[') with
    | none =>
      simp only [hb, hk, Option.some.injEq, Prod.mk.injEq] at h
      obtain ⟨ho, hc, hi⟩ := h
      subst ho; subst hc; subst hi
      exact ⟨Or.inl ⟨rfl, rfl⟩, hb⟩
    | some k =>
      simp only [hb, hk] at h
      by_cases hlt : b < k
      · rw [if_pos hlt] at h
        simp only [Option.some.injEq, Prod.mk.injEq] at h
        obtain ⟨ho, hc, hi⟩ := h
        subst ho; subst hc; subst hi
        exact ⟨Or.inl ⟨rfl, rfl⟩, hb⟩
      · rw [if_neg hlt] at h
        simp only [Option.some.injEq, Prod.mk.injEq] at h
        obtain ⟨ho, hc, hi⟩ := h
        subst ho; subst hc; subst hi
        exact ⟨Or.inr ⟨rfl, rfl⟩, hk⟩

lemma depthScan_cons (o c x : Char) (t : List Char) (d : Int) :
    depthScan o c (x :: t) d =
      (let depth' := if x = o then d + 1 else if x = c then d - 1 else d
       if depth' = 0 then some 1
       else (depthScan o c t depth').map (· + 1)) := by
  conv_lhs => unfold depthScan

lemma depthScan_cons_open (o c : Char) (t : List Char) (d : Int) (hne : ¬ (d + 1 = 0)) :
    depthScan o c (o :: t) d = (depthScan o c t (d + 1)).map (· + 1) := by
  conv_lhs => unfold depthScan
  simp [hne]

lemma depthScan_cons_close (o c : Char) (t : List Char) (d : Int) (hco : ¬ c = o)
    (hne : ¬ (d - 1 = 0)) :
    depthScan o c (c :: t) d = (depthScan o c t (d - 1)).map (· + 1) := by
  conv_lhs => unfold depthScan
  simp [hco, hne]

lemma depthScan_cons_close_zero (o c : Char) (t : List Char) (d : Int) (hco : ¬ c = o)
    (hzero : d - 1 = 0) :
    depthScan o c (c :: t) d = some 1 := by
  conv_lhs => unfold depthScan
  simp [hco, hzero]

lemma depthScan_cons_other (o c x : Char) (t : List Char) (d : Int) (hx : ¬ x = o)
    (hxc : ¬ x = c) (hne : ¬ d = 0) :
    depthScan o c (x :: t) d = (depthScan o c t d).map (· + 1) := by
  conv_lhs => unfold depthScan
  simp [hx, hxc, hne]

/-- Whether the depth count ever returns to zero depends only on the
subsequence of brackets of the scanned type, for any positive starting
depth. -/
lemma depthScan_none_trace (o c : Char) (honc : o ≠ c) :
    ∀ (l : List Char) (d : Int), 1 ≤ d →
      (depthScan o c l d = none ↔ depthScan o c (bracketTrace o c l) d = none) := by
  have hco : ¬ c = o := fun h => honc h.symm
  intro l
  induction l with
  | nil => intro d _; simp [bracketTrace, depthScan]
  | cons x t ih =>
    intro d hd
    by_cases hx : x = o
    · have htr : bracketTrace o c (x :: t) = x :: bracketTrace o c t := by
        simp [bracketTrace, List.filter_cons, hx]
      have hne : ¬ (d + 1 = 0) := by omega
      rw [htr, hx, depthScan_cons_open o c t d hne,
        depthScan_cons_open o c (bracketTrace o c t) d hne]
      simp only [Option.map_eq_none']
      exact ih (d + 1) (by omega)
    · by_cases hxc : x = c
      · have htr : bracketTrace o c (x :: t) = x :: bracketTrace o c t := by
          simp [bracketTrace, List.filter_cons, hxc]
        rw [htr, hxc]
        by_cases hd1 : d - 1 = 0
        · rw [depthScan_cons_close_zero o c t d hco hd1,
            depthScan_cons_close_zero o c (bracketTrace o c t) d hco hd1]
        · rw [depthScan_cons_close o c t d hco hd1,
            depthScan_cons_close o c (bracketTrace o c t) d hco hd1]
          simp only [Option.map_eq_none']
          exact ih (d - 1) (by omega)
      · have htr : bracketTrace o c (x :: t) = bracketTrace o c t := by
          simp [bracketTrace, List.filter_cons, hx, hxc]
        have hne : ¬ (d = 0) := by omega
        rw [htr, depthScan_cons_other o c x t d hx hxc hne]
        simp only [Option.map_eq_none']
        exact ih d hd

/-- The scan started at an opening bracket never returns to zero exactly when
the scan of the tail at depth one never does. -/
lemma depthScan_open_cons_none (o c : Char) (t : List Char) :
    (depthScan o c (o :: t) 0 = none) ↔ depthScan o c t 1 = none := by
  rw [depthScan_cons_open o c t 0 (by omega)]
  simp only [Option.map_eq_none']
  norm_num

/-- When extraction fails, the parser returns the supplied default, or the
empty list when none was supplied. -/
lemma parser_default_of_extract_none (s : String) (hex : llm_json_extract s = none) :
    (∀ d, llm_json_parser_robust s (some d) = d) ∧
      llm_json_parser_robust s none = Json.arr [] := by
  constructor
  · intro d
    rw [llm_json_parser_robust_eq_extract, hex]
    rfl
  · rw [llm_json_parser_robust_eq_extract, hex]
    rfl

/-- Text with no brace and no square bracket reaches the parser's
no-opening-bracket failure path. -/
lemma extract_none_of_no_brackets (s : String)
    (h7b : '\x7b' ∉ s.data) (hbr : '[' ∉ s.data) :
    llm_json_extract s = none := by
  have hdel : ∀ c, fenceDeletable c = true →
      (fun x => x == '\x7b' || x == '[') c = false := by
    apply fenceDeletable_false_of_brackets
    intro x hx
    have hx' : (x == '\x7b') = true ∨ (x == '[') = true := by simpa using hx
    rcases hx' with h | h
    · exact Or.inl (by simpa using h)
    · exact Or.inr (Or.inr (Or.inl (by simpa using h)))
  have hnil : s.data.filter (fun x => x == '\x7b' || x == '[') = [] := by
    rw [List.filter_eq_nil_iff]
    intro x hx
    simp only [Bool.or_eq_true, beq_iff_eq, not_or]
    exact ⟨fun h => h7b (h ▸ hx), fun h => hbr (h ▸ hx)⟩
  have hfe : (stripFences (pyStrip s)).data.filter (fun x => x == '\x7b' || x == '[') = [] :=
    (filter_cleaned _ hdel s).trans hnil
  have hnone : ∀ x ∈ (stripFences (pyStrip s)).data, (x == '\x7b' || x == '[') = false := by
    intro x hx
    by_contra hq
    have hq' : (x == '\x7b' || x == '[') = true := by
      revert hq
      cases (x == '\x7b' || x == '[') <;> simp
    have hxmem : x ∈ (stripFences (pyStrip s)).data.filter
        (fun x => x == '\x7b' || x == '[') :=
      List.mem_filter.mpr ⟨hx, hq'⟩
    rw [hfe] at hxmem
    simp at hxmem
  have hb : (stripFences (pyStrip s)).data.findIdx? (fun x => x == '\x7b') = none := by
    rw [List.findIdx?_eq_none_iff]
    intro x hx
    have h := hnone x hx
    simp only [Bool.or_eq_false_iff] at h
    exact h.1
  have hk : (stripFences (pyStrip s)).data.findIdx? (fun x => x == '[') = none := by
    rw [List.findIdx?_eq_none_iff]
    intro x hx
    have h := hnone x hx
    simp only [Bool.or_eq_false_iff] at h
    exact h.2
  have hfs : firstJsonStart (stripFences (pyStrip s)).data = none := by
    unfold firstJsonStart
    simp only [hb, hk]
  unfold llm_json_extract
  simp [hfs]

/-- Text whose bracket depth (of the type of the first opening bracket) never
returns to zero reaches the parser's no-matching-end failure path. -/
lemma extract_none_of_unclosed (s : String) (o c : Char) (i : Nat)
    (hfs : firstJsonStart s.data = some (o, c, i))
    (hds : depthScan o c (s.data.drop i) 0 = none) :
    llm_json_extract s = none := by
  obtain ⟨hshape, hfi⟩ := firstJsonStart_shape hfs
  have honc : o ≠ c := by
    rcases hshape with ⟨ho', hc'⟩ | ⟨ho', hc'⟩ <;> rw [ho', hc'] <;> decide
  have hocb : (o == c) = false := by simpa using honc
  have hfind_s : s.data.find? (fun x => x == '\x7b' || x == '[') = some o := by
    rw [← firstJsonStart_map_fst, hfs]
    rfl
  have hdel : ∀ x, fenceDeletable x = true →
      (fun y => y == '\x7b' || y == '[') x = false := by
    apply fenceDeletable_false_of_brackets
    intro x hx
    have hx' : (x == '\x7b') = true ∨ (x == '[') = true := by simpa using hx
    rcases hx' with h | h
    · exact Or.inl (by simpa using h)
    · exact Or.inr (Or.inr (Or.inl (by simpa using h)))
  have hfe : (stripFences (pyStrip s)).data.filter (fun x => x == '\x7b' || x == '[') =
      s.data.filter (fun x => x == '\x7b' || x == '[') := filter_cleaned _ hdel s
  have hfind_cl : (stripFences (pyStrip s)).data.find?
      (fun x => x == '\x7b' || x == '[') = some o := by
    rw [← List.filter_head?, hfe, List.filter_head?]
    exact hfind_s
  have hmap2 : (firstJsonStart (stripFences (pyStrip s)).data).map (fun v => v.1) = some o := by
    rw [firstJsonStart_map_fst]
    exact hfind_cl
  obtain ⟨v2, hfs2, ho2⟩ := Option.map_eq_some'.mp hmap2
  obtain ⟨o2, c2, i2⟩ := v2
  have ho2e : o2 = o := ho2
  rw [ho2e] at hfs2
  obtain ⟨hshape2, hfi2⟩ := firstJsonStart_shape hfs2
  have hc2 : c2 = c := by
    rcases hshape with ⟨ho', hc'⟩ | ⟨ho', hc'⟩ <;>
      rcases hshape2 with ⟨ho2', hc2'⟩ | ⟨ho2', hc2'⟩
    · rw [hc2', hc']
    · rw [ho'] at ho2'; exact absurd ho2' (by decide)
    · rw [ho'] at ho2'; exact absurd ho2' (by decide)
    · rw [hc2', hc']
  rw [hc2] at hfs2
  have htrcl : bracketTrace o c (stripFences (pyStrip s)).data = bracketTrace o c s.data := by
    unfold bracketTrace
    apply filter_cleaned
    apply fenceDeletable_false_of_brackets
    intro x hx
    have hx' : (x == o) = true ∨ (x == c) = true := by simpa using hx
    rcases hx' with h | h
    · have hxo : x = o := by simpa using h
      rcases hshape with ⟨ho', _⟩ | ⟨ho', _⟩
      · exact Or.inl (hxo.trans ho')
      · exact Or.inr (Or.inr (Or.inl (hxo.trans ho')))
    · have hxc : x = c := by simpa using h
      rcases hshape with ⟨_, hc'⟩ | ⟨_, hc'⟩
      · exact Or.inr (Or.inl (hxc.trans hc'))
      · exact Or.inr (Or.inr (Or.inr (hxc.trans hc')))
  obtain ⟨a1, t1, hdrop1, hpa1⟩ := drop_findIdx?_head _ s.data i hfi
  have ha1 : a1 = o := by simpa using hpa1
  rw [ha1] at hdrop1
  rw [hdrop1] at hds
  have ht1 : depthScan o c t1 1 = none := (depthScan_open_cons_none o c t1).mp hds
  obtain ⟨a2, t2, hdrop2, hpa2⟩ := drop_findIdx?_head _ (stripFences (pyStrip s)).data i2 hfi2
  have ha2 : a2 = o := by simpa using hpa2
  rw [ha2] at hdrop2
  have htr1 : bracketTrace o c (s.data.drop i) =
      (bracketTrace o c s.data).dropWhile (fun x => x == c) :=
    bracketTrace_drop o c hocb s.data i hfi
  have htr2 : bracketTrace o c ((stripFences (pyStrip s)).data.drop i2) =
      (bracketTrace o c (stripFences (pyStrip s)).data).dropWhile (fun x => x == c) :=
    bracketTrace_drop o c hocb (stripFences (pyStrip s)).data i2 hfi2
  have hcons : ∀ m : List Char, bracketTrace o c (o :: m) = o :: bracketTrace o c m := by
    intro m
    simp [bracketTrace, List.filter_cons]
  have htt : bracketTrace o c t1 = bracketTrace o c t2 := by
    have e1 : bracketTrace o c (o :: t1) = bracketTrace o c (o :: t2) := by
      rw [← hdrop1, ← hdrop2, htr1, htr2, htrcl]
    rw [hcons, hcons] at e1
    simpa using e1
  have ht2 : depthScan o c t2 1 = none := by
    rw [depthScan_none_trace o c honc t2 1 (le_refl 1), ← htt,
      ← depthScan_none_trace o c honc t1 1 (le_refl 1)]
    exact ht1
  have hds2 : depthScan o c ((stripFences (pyStrip s)).data.drop i2) 0 = none := by
    rw [hdrop2]
    exact (depthScan_open_cons_none o c t2).mpr ht2
  unfold llm_json_extract
  simp [hfs2, hds2]

/-- C3: the recovery-oriented JSON parser returns `[1,2,3]` on the fenced
example input; for every input with no brace and no square bracket it returns
the caller-supplied default; for every input whose bracket depth of the type
of the first opening bracket never returns to zero it returns the
caller-supplied default; and in those failure cases it returns an empty list
when no default is supplied. -/
theorem llm_json_parser_behaviour :
    (∀ d : Option Json,
      llm_json_parser_robust "prefix \x60\x60\x60json [1,2,3] \x60\x60\x60 suffix" d =
        Json.arr [Json.num 1, Json.num 2, Json.num 3]) ∧
    (∀ (s : String) (d : Json), '\x7b' ∉ s.data → '[' ∉ s.data →
      llm_json_parser_robust s (some d) = d ∧
        llm_json_parser_robust s none = Json.arr []) ∧
    (∀ (s : String) (d : Json) (o c : Char) (i : Nat),
      firstJsonStart s.data = some (o, c, i) →
      depthScan o c (s.data.drop i) 0 = none →
      llm_json_parser_robust s (some d) = d ∧
        llm_json_parser_robust s none = Json.arr []) := by
  refine ⟨fun d => rfl, ?_, ?_⟩
  · intro s d h1 h2
    have hex := extract_none_of_no_brackets s h1 h2
    exact ⟨(parser_default_of_extract_none s hex).1 d, (parser_default_of_extract_none s hex).2⟩
  · intro s d o c i hfs hds
    have hex := extract_none_of_unclosed s o c i hfs hds
    exact ⟨(parser_default_of_extract_none s hex).1 d, (parser_default_of_extract_none s hex).2⟩

theorem llm_json_parser_behaviour_witness :
    llm_json_parser_robust "hello world" (some Json.null) = Json.null ∧
    llm_json_parser_robust "[1, 2" none = Json.arr [] :=
  ⟨(llm_json_parser_behaviour.2.1 "hello world" Json.null (by decide) (by decide)).1,
   (llm_json_parser_behaviour.2.2 "[1, 2" Json.null '[' ']' 0 (by decide) (by decide)).2⟩

/-! ## Validator behaviour on the spec's example inputs -/

/-- C5: state construction validates its inputs — the domain validator
rejects "Tech!!" and accepts "Tech-2025"; the query validator rejects "ab"
and accepts "ai market"; accordingly state construction fails on the former
inputs and succeeds on the latter. -/
theorem validators_on_examples :
    validate_market_domain_value "Tech!!" =
      .error "Market domain must contain only letters, numbers, spaces, or hyphens." ∧
    validate_market_domain_value "Tech-2025" = .ok "Tech-2025" ∧
    validate_query_value (some "ab") =
      .error "Query must be at least 3 characters long if provided." ∧
    validate_query_value (some "ai market") = .ok (some "ai market") ∧
    (mkState "Tech!!" (some "ai market") none none "sid").isOk = false ∧
    (mkState "Tech-2025" (some "ab") none none "sid").isOk = false ∧
    mkState "Tech-2025" (some "ai market") none none "sid" =
      .ok { market_domain := "Tech-2025", query := some "ai market", state_id := "sid" } :=
  ⟨rfl, rfl, rfl, rfl, rfl, rfl, rfl⟩

/-- C10 (code behaviour at the failing input): a market domain consisting
only of whitespace is NOT rejected — the regex class `[a-zA-Z0-9\s-]` admits
whitespace, so the validator accepts " " and returns its stripped value, the
empty string; state construction therefore succeeds with an empty stored
domain, even though the validator's own first check claims the domain cannot
be empty.  In general, any non-empty all-whitespace string is accepted and
stripped to the empty string. -/
theorem whitespace_domain_accepted :
    validate_market_domain_value " " = .ok "" ∧
    validate_market_domain_value "  \t " = .ok "" ∧
    (mkState " " none none none "sid").isOk = true ∧
    validate_market_domain_value "" = .error "Market domain cannot be empty." :=
  ⟨rfl, rfl, rfl, rfl⟩

/-! ## LLM-driven analysis stages (agent_logic.py 1299-1617)

Each stage resolves a credential, invokes the LLM once and parses the reply;
the credential resolution, LLM construction and `ainvoke` all sit inside one
`try` block, so their combined outcome is a single `Except String String`
parameter (`.error` abstracts any exception with its text).  Artifact writes
are modelled as succeeding (a write failure is caught and merely skips the
`download_files` registration); the `save_state` call each stage ends with
acts on the store, not on the state, and is modelled at the orchestrator
level. -/

/-- Python dictionary assignment `d[key] = v`: replace the value at an
existing key in place, else append the new binding (insertion order
preserved). -/
def dictSet (d : List (String × FileVal)) (k : String) (v : FileVal) :
    List (String × FileVal) :=
  if d.any (fun kv => kv.1 == k) then
    d.map (fun kv => if kv.1 == k then (k, v) else kv)
  else
    d ++ [(k, v)]

/-- The shape check `isinstance(parsed, list) and all(isinstance(x, dict) for
x in parsed)` applied by every analysis stage: the elements when the value is
a list of JSON objects, else `none`. -/
def asListOfDicts : Json → Option (List Json)
  | .arr l => if l.all Json.isDict then some l else none
  | _ => none

/-- `default_trends_list` (agent_logic.py 1307). -/
def default_trends_list : List Json :=
  [.obj [("trend_name", .str "Default Trend"),
         ("description", .str "No specific trends identified."),
         ("supporting_evidence", .str "N/A"),
         ("estimated_impact", .str "Unknown"),
         ("timeframe", .str "Unknown")]]

/-- `default_ops` (agent_logic.py 1383). -/
def default_ops : List Json :=
  [.obj [("opportunity_name", .str "Default Opportunity"),
         ("description", .str "N/A"),
         ("target_segment", .str "N/A"),
         ("competitive_advantage", .str "N/A"),
         ("estimated_potential", .str "Unknown"),
         ("timeframe_to_capture", .str "Unknown")]]

/-- `default_strats` (agent_logic.py 1456). -/
def default_strats : List Json :=
  [.obj [("strategy_title", .str "Default Strategy"),
         ("description", .str "N/A"),
         ("implementation_steps", .arr []),
         ("expected_outcome", .str "N/A"),
         ("resource_requirements", .str "N/A"),
         ("priority_level", .str "Unknown"),
         ("success_metrics", .str "N/A")]]

/-- `default_insights` (agent_logic.py 1527-1531); the non-integral
satisfaction scores 7.8 / 8.2 / 8.5 are `numq` tenths. -/
def default_insights : List Json :=
  [.obj [("segment_name", .str "Enterprise"),
         ("description", .str "Large organizations with complex needs"),
         ("percentage", .num 35),
         ("key_characteristics", .arr [.str "High budget", .str "Long sales cycle",
            .str "Multiple stakeholders"]),
         ("pain_points", .arr [.str "Integration complexity", .str "Security concerns",
            .str "Compliance requirements"]),
         ("growth_potential", .str "Medium"),
         ("satisfaction_score", .numq 78),
         ("retention_rate", .num 85),
         ("acquisition_cost", .str "High"),
         ("lifetime_value", .str "Very High")],
   .obj [("segment_name", .str "SMB"),
         ("description", .str "Small and medium businesses"),
         ("percentage", .num 45),
         ("key_characteristics", .arr [.str "Price sensitive", .str "Quick decision making",
            .str "Limited resources"]),
         ("pain_points", .arr [.str "Cost concerns", .str "Ease of implementation",
            .str "Limited technical expertise"]),
         ("growth_potential", .str "High"),
         ("satisfaction_score", .numq 82),
         ("retention_rate", .num 75),
         ("acquisition_cost", .str "Medium"),
         ("lifetime_value", .str "Medium")],
   .obj [("segment_name", .str "Startups"),
         ("description", .str "Early stage companies with rapid growth"),
         ("percentage", .num 20),
         ("key_characteristics", .arr [.str "Innovation focused", .str "Limited budget",
            .str "Agile processes"]),
         ("pain_points", .arr [.str "Scalability", .str "Quick time-to-value",
            .str "Flexible pricing models"]),
         ("growth_potential", .str "Very High"),
         ("satisfaction_score", .numq 85),
         ("retention_rate", .num 65),
         ("acquisition_cost", .str "Low"),
         ("lifetime_value", .str "Variable")]]

/-- `trend_analyzer` (agent_logic.py 1299-1373): on any exception the trends
field falls back to the default; otherwise the LLM reply is parsed and
substituted by the default unless it is a list of objects; with a report
directory present the produced list is registered under "trends_json". -/
def trend_analyzer (llmOutcome : Except String String)
    (current_state : MarketIntelligenceState) : MarketIntelligenceState :=
  match llmOutcome with
  | .error _ => { current_state with market_trends := default_trends_list }
  | .ok llm_output_string =>
    let parsed := llm_json_parser_robust llm_output_string (some (.arr default_trends_list))
    let parsed_trends := (asListOfDicts parsed).getD default_trends_list
    let st := { current_state with market_trends := parsed_trends }
    match current_state.report_dir with
    | some dir =>
      { st with download_files :=
          dictSet st.download_files "trends_json" (.path (dir ++ "/market_trends.json")) }
    | none => st

/-- `strategy_recommender` (agent_logic.py 1448-1521), same shape with the
strategies field, default and artifact name. -/
def strategy_recommender (llmOutcome : Except String String)
    (current_state : MarketIntelligenceState) : MarketIntelligenceState :=
  match llmOutcome with
  | .error _ => { current_state with strategic_recommendations := default_strats }
  | .ok llm_output =>
    let parsed := llm_json_parser_robust llm_output (some (.arr default_strats))
    let parsed_strats := (asListOfDicts parsed).getD default_strats
    let st := { current_state with strategic_recommendations := parsed_strats }
    match current_state.report_dir with
    | some dir =>
      { st with download_files :=
          dictSet st.download_files "strategies_json" (.path (dir ++ "/strategies.json")) }
    | none => st

/-- `customer_insights_generator` (agent_logic.py 1519-1617), same shape with
the insights field, default and artifact name (the additional per-segment
insert into the `customer_insights` sqlite table is a store side effect and
does not touch the state). -/
def customer_insights_generator (llmOutcome : Except String String)
    (current_state : MarketIntelligenceState) : MarketIntelligenceState :=
  match llmOutcome with
  | .error _ => { current_state with customer_insights := default_insights }
  | .ok llm_output =>
    let parsed := llm_json_parser_robust llm_output (some (.arr default_insights))
    let parsed_insights := (asListOfDicts parsed).getD default_insights
    let st := { current_state with customer_insights := parsed_insights }
    match current_state.report_dir with
    | some dir =>
      let dls := dictSet st.download_files "customer_insights_json"
        (FileVal.path (dir ++ "/customer_insights.json"))
      { st with download_files := dls }
    | none => st

/-- "The LLM call raises, or its output does not parse to a list of
objects". -/
def llmOutputUnusable (llmOutcome : Except String String) : Prop :=
  match llmOutcome with
  | .error _ => True
  | .ok out => ∀ j, llm_json_extract out = some j → asListOfDicts j = none

/-- Common core: parsing an unusable reply with a list-of-objects default
yields exactly the default. -/
lemma stage_parse_default (out : String) (D : List Json)
    (hD : D.all Json.isDict = true)
    (h : ∀ j, llm_json_extract out = some j → asListOfDicts j = none) :
    (asListOfDicts (llm_json_parser_robust out (some (.arr D)))).getD D = D := by
  rw [llm_json_parser_robust_eq_extract]
  cases hext : llm_json_extract out with
  | none => simp [asListOfDicts, hD]
  | some j => simp [h j hext]

/-- C4: whenever the LLM call raises or its output does not parse to a list
of objects, the Trend stage produces exactly its single-element unknown-trend
default, the Strategy stage its single-element default with empty
implementation steps, and the Customer-Insight stage exactly its three
segments named "Enterprise", "SMB" and "Startups" with the fixed percentages
35/45/20. -/
theorem analysis_stage_defaults (llmOutcome : Except String String)
    (st : MarketIntelligenceState) (h : llmOutputUnusable llmOutcome) :
    (trend_analyzer llmOutcome st).market_trends = default_trends_list ∧
    (strategy_recommender llmOutcome st).strategic_recommendations = default_strats ∧
    (customer_insights_generator llmOutcome st).customer_insights = default_insights ∧
    default_trends_list.length = 1 ∧
    default_strats.map (fun j => j.get "implementation_steps" .null) = [.arr []] ∧
    default_insights.map (fun j => j.get "segment_name" .null) =
      [.str "Enterprise", .str "SMB", .str "Startups"] ∧
    default_insights.map (fun j => j.get "percentage" .null) =
      [.num 35, .num 45, .num 20] := by
  refine ⟨?_, ?_, ?_, rfl, rfl, rfl, rfl⟩
  · cases llmOutcome with
    | error e => cases st.report_dir <;> rfl
    | ok out =>
      have hcore := stage_parse_default out default_trends_list rfl h
      cases hrd : st.report_dir <;> simp [trend_analyzer, hrd, hcore]
  · cases llmOutcome with
    | error e => cases st.report_dir <;> rfl
    | ok out =>
      have hcore := stage_parse_default out default_strats rfl h
      cases hrd : st.report_dir <;> simp [strategy_recommender, hrd, hcore]
  · cases llmOutcome with
    | error e => cases st.report_dir <;> rfl
    | ok out =>
      have hcore := stage_parse_default out default_insights rfl h
      cases hrd : st.report_dir <;> simp [customer_insights_generator, hrd, hcore]

theorem analysis_stage_defaults_witness :
    (trend_analyzer (Except.ok "the model returned no json") { state_id := "s" }).market_trends =
      default_trends_list ∧
    (customer_insights_generator (Except.error "ProviderError")
      { state_id := "s" }).customer_insights = default_insights :=
  have hu : llmOutputUnusable (Except.ok "the model returned no json") := fun j hj => by
    rw [show llm_json_extract "the model returned no json" = none from rfl] at hj
    exact Option.noConfusion hj
  ⟨(analysis_stage_defaults (Except.ok "the model returned no json") { state_id := "s" } hu).1,
   (analysis_stage_defaults (Except.error "ProviderError") { state_id := "s" } trivial).2.2.1⟩

/-! ## Question answering (`rag_query_handler`, agent_logic.py 1736-1792) -/

/-- Python truthiness of an optional string: `None` and the empty string are
falsy. -/
def pyTruthyStr : Option String → Bool
  | none => false
  | some s => !(s == "")

/-- Outcome of the fallible work inside the handler's `try` block (credential
resolution, LLM construction, index load, retrieval and the LLM call): a
response dictionary whose "result" entry may be absent, a `ValueError`, or
any other exception, each with its text. -/
inductive RagOutcome where
  | ok (result : Option String) : RagOutcome
  | valueError (msg : String) : RagOutcome
  | exn (msg : String) : RagOutcome

/-- `rag_query_handler` (agent_logic.py 1736-1792): no-op response when no
question was supplied; "vector store not available" when the index path is
unset, empty or absent on disk (`pathExists` stands for `os.path.exists`);
otherwise the response from the QA chain, with each caught exception
converted into an error-describing response string. -/
def rag_query_handler (pathExists : String → Bool) (outcome : RagOutcome)
    (current_state : MarketIntelligenceState) : MarketIntelligenceState :=
  if !(pyTruthyStr current_state.question) then
    { current_state with query_response := some "No question provided for RAG query." }
  else if !(pyTruthyStr current_state.vector_store_path) ||
      !(pathExists (current_state.vector_store_path.getD "")) then
    { current_state with query_response := some "Vector store not available. Cannot answer question." }
  else
    match outcome with
    | .ok r =>
      { current_state with query_response := some (r.getD "No response generated.") }
    | .valueError m =>
      let msg := "Error processing question due to configuration: " ++ m
      { current_state with query_response := some msg }
    | .exn m =>
      { current_state with query_response := some ("Error processing question: " ++ m) }

/-- C6: the question-answering stage always terminates with a response set —
a "no question provided" message when no question was supplied, a "vector
store not available" message when the index path is unset or absent on disk,
and an error-describing response string on any failure during credential
resolution, index load or the LLM call — and never raises. -/
theorem rag_query_handler_responses (pathExists : String → Bool) (outcome : RagOutcome)
    (st : MarketIntelligenceState) :
    ((rag_query_handler pathExists outcome st).query_response.isSome = true) ∧
    (pyTruthyStr st.question = false →
      (rag_query_handler pathExists outcome st).query_response =
        some "No question provided for RAG query.") ∧
    (pyTruthyStr st.question = true →
      (pyTruthyStr st.vector_store_path = false ∨
        pathExists (st.vector_store_path.getD "") = false) →
      (rag_query_handler pathExists outcome st).query_response =
        some "Vector store not available. Cannot answer question.") ∧
    (∀ m, pyTruthyStr st.question = true →
      pyTruthyStr st.vector_store_path = true →
      pathExists (st.vector_store_path.getD "") = true →
      outcome = .valueError m →
      (rag_query_handler pathExists outcome st).query_response =
        some ("Error processing question due to configuration: " ++ m)) ∧
    (∀ m, pyTruthyStr st.question = true →
      pyTruthyStr st.vector_store_path = true →
      pathExists (st.vector_store_path.getD "") = true →
      outcome = .exn m →
      (rag_query_handler pathExists outcome st).query_response =
        some ("Error processing question: " ++ m)) := by
  refine ⟨?_, ?_, ?_, ?_, ?_⟩
  · unfold rag_query_handler
    split
    · rfl
    · split
      · rfl
      · cases outcome <;> rfl
  · intro hq
    unfold rag_query_handler
    simp [hq]
  · intro hq hvs
    unfold rag_query_handler
    rcases hvs with h | h <;> simp [hq, h]
  · intro m hq hvs hpe hout
    unfold rag_query_handler
    simp [hq, hvs, hpe, hout]
  · intro m hq hvs hpe hout
    unfold rag_query_handler
    simp [hq, hvs, hpe, hout]

theorem rag_query_handler_responses_witness :
    (rag_query_handler (fun _ => true) (RagOutcome.ok none)
        { state_id := "s" }).query_response =
      some "No question provided for RAG query." ∧
    (rag_query_handler (fun _ => false) (RagOutcome.ok none)
        { state_id := "s", question := some "why", vector_store_path := some "vs" }).query_response =
      some "Vector store not available. Cannot answer question." ∧
    (rag_query_handler (fun _ => true) (RagOutcome.exn "boom")
        { state_id := "s", question := some "why", vector_store_path := some "vs" }).query_response =
      some ("Error processing question: " ++ "boom") :=
  ⟨(rag_query_handler_responses (fun _ => true) (RagOutcome.ok none)
      { state_id := "s" }).2.1 rfl,
   (rag_query_handler_responses (fun _ => false) (RagOutcome.ok none)
      { state_id := "s", question := some "why", vector_store_path := some "vs" }).2.2.1
      rfl (Or.inr rfl),
   (rag_query_handler_responses (fun _ => true) (RagOutcome.exn "boom")
      { state_id := "s", question := some "why", vector_store_path := some "vs" }).2.2.2.2
      "boom" rfl rfl rfl rfl⟩

/-! ## Chart generation (`generate_charts`, agent_logic.py 1794-1957)

The numeric value charted for an item is computed from a categorical field;
each of the three categorical charts has its own mapping, read off the
`if`/`elif` chains of the source.  `Json.get`/`Json.eqStr` mirror
`t.get('…', 'Medium')` and Python `==` against a string literal. -/

/-- Trends chart (agent_logic.py 1814-1820): `High` -> 3, `Medium` -> 2,
anything else (including `Very High`) -> 1. -/
def trendImpactValue (t : Json) : Nat :=
  let impact := t.get "estimated_impact" (.str "Medium")
  if impact.eqStr "High" then 3 else if impact.eqStr "Medium" then 2 else 1

/-- Opportunities chart (agent_logic.py 1848-1855): `High` or `Very High` ->
3, `Medium` -> 2, else -> 1. -/
def oppPotentialValue (o : Json) : Nat :=
  let potential := o.get "estimated_potential" (.str "Medium")
  if potential.eqStr "High" || potential.eqStr "Very High" then 3
  else if potential.eqStr "Medium" then 2 else 1

/-- Strategies chart (agent_logic.py 1911-1920): `High` or `Critical` -> 3,
`Medium` -> 2, else (including `Very High`) -> 1. -/
def stratPriorityValue (s : Json) : Nat :=
  let priority := s.get "priority_level" (.str "Medium")
  if priority.eqStr "High" || priority.eqStr "Critical" then 3
  else if priority.eqStr "Medium" then 2 else 1

/-- The numeric values charted for the first five trends. -/
def trendChartValues (st : MarketIntelligenceState) : List Nat :=
  (st.market_trends.take 5).map trendImpactValue

/-- The numeric values charted for the first five opportunities. -/
def oppChartValues (st : MarketIntelligenceState) : List Nat :=
  (st.opportunities.take 5).map oppPotentialValue

/-- The numeric values charted for the first five strategies. -/
def stratChartValues (st : MarketIntelligenceState) : List Nat :=
  (st.strategic_recommendations.take 5).map stratPriorityValue

/-- The customer-segments chart does not use a categorical mapping at all: it
charts the numeric `percentage` and `satisfaction_score` fields directly
(agent_logic.py 1877-1880). -/
def customerChartInputs (st : MarketIntelligenceState) : List (Json × Json) :=
  (st.customer_insights.take 5).map
    (fun seg => (seg.get "percentage" (.num 0), seg.get "satisfaction_score" (.num 0)))

/-- `generate_charts` (agent_logic.py 1794-1957): without a report directory
the state is returned unchanged; otherwise one chart artifact is appended to
`chart_paths` per non-empty collection among trends, opportunities, customer
insights and strategic recommendations (Python list truthiness), and the
whole chart-path list is stored under the "charts" key of `download_files`
(the value stored is the list itself, not a path string).  The model assumes
the plotting libraries are available and rendering succeeds; a rendering
failure is caught at stage level and yields a partial chart set. -/
def generate_charts (current_state : MarketIntelligenceState) : MarketIntelligenceState :=
  match current_state.report_dir with
  | none => current_state
  | some dir =>
    let p1 := if current_state.market_trends.isEmpty then current_state.chart_paths
      else current_state.chart_paths ++ [dir ++ "/market_trends_impact.png"]
    let p2 := if current_state.opportunities.isEmpty then p1
      else p1 ++ [dir ++ "/opportunities_distribution.png"]
    let p3 := if current_state.customer_insights.isEmpty then p2
      else p2 ++ [dir ++ "/customer_insights.png"]
    let p4 := if current_state.strategic_recommendations.isEmpty then p3
      else p3 ++ [dir ++ "/strategic_recommendations.png"]
    let st := { current_state with chart_paths := p4 }
    { st with download_files := dictSet st.download_files "charts" (.pathList p4) }

/-- C7: with a report directory, the chart stage produces exactly one chart
artifact per non-empty analysis collection and skips empty ones; in
particular, starting from no chart paths, only trends populated gives exactly
one path and all four collections populated give exactly four. -/
theorem generate_charts_counts (st : MarketIntelligenceState) (dir : String)
    (h : st.report_dir = some dir) :
    ((generate_charts st).chart_paths.length = st.chart_paths.length
      + (if st.market_trends.isEmpty then 0 else 1)
      + (if st.opportunities.isEmpty then 0 else 1)
      + (if st.customer_insights.isEmpty then 0 else 1)
      + (if st.strategic_recommendations.isEmpty then 0 else 1)) ∧
    (st.chart_paths = [] → st.market_trends.isEmpty = false →
      st.opportunities.isEmpty = true → st.customer_insights.isEmpty = true →
      st.strategic_recommendations.isEmpty = true →
      (generate_charts st).chart_paths.length = 1) ∧
    (st.chart_paths = [] → st.market_trends.isEmpty = false →
      st.opportunities.isEmpty = false → st.customer_insights.isEmpty = false →
      st.strategic_recommendations.isEmpty = false →
      (generate_charts st).chart_paths.length = 4) := by
  have hmain : (generate_charts st).chart_paths.length = st.chart_paths.length
      + (if st.market_trends.isEmpty then 0 else 1)
      + (if st.opportunities.isEmpty then 0 else 1)
      + (if st.customer_insights.isEmpty then 0 else 1)
      + (if st.strategic_recommendations.isEmpty then 0 else 1) := by
    unfold generate_charts
    rw [h]
    split_ifs <;> simp [List.length_append]
  refine ⟨hmain, ?_, ?_⟩
  · intro h0 h1 h2 h3 h4
    rw [hmain, h0, h1, h2, h3, h4]
    rfl
  · intro h0 h1 h2 h3 h4
    rw [hmain, h0, h1, h2, h3, h4]
    rfl

/-- A state at the chart stage with only trends populated. -/
def onlyTrendsState : MarketIntelligenceState :=
  { state_id := "s", report_dir := some "R", market_trends := default_trends_list }

/-- A state at the chart stage with all four charted collections populated. -/
def allFourState : MarketIntelligenceState :=
  { state_id := "s", report_dir := some "R", market_trends := default_trends_list,
    opportunities := default_ops, customer_insights := default_insights,
    strategic_recommendations := default_strats }

theorem generate_charts_counts_witness :
    (generate_charts onlyTrendsState).chart_paths.length = 1 ∧
    (generate_charts allFourState).chart_paths.length = 4 :=
  ⟨(generate_charts_counts onlyTrendsState "R" rfl).2.1 rfl rfl rfl rfl rfl,
   (generate_charts_counts allFourState "R" rfl).2.2 rfl rfl rfl rfl rfl⟩

/-- The severity mapping as the claim words it, uniformly for all charts. -/
def claimedSeverityValue (s : String) : Nat :=
  if s = "High" ∨ s = "Very High" then 3 else if s = "Medium" then 2 else 1

/-- C8 counterexample: the claimed uniform mapping fails on the trends chart —
an item whose `estimated_impact` is "Very High" is charted as 1, not 3, and
likewise on the strategies chart for `priority_level` "Very High". -/
theorem chart_severity_mapping_counterexample :
    trendImpactValue (Json.obj [("estimated_impact", Json.str "Very High")]) = 1 ∧
    stratPriorityValue (Json.obj [("priority_level", Json.str "Very High")]) = 1 ∧
    claimedSeverityValue "Very High" = 3 ∧
    trendImpactValue (Json.obj [("estimated_impact", Json.str "Very High")]) ≠
      claimedSeverityValue "Very High" :=
  ⟨rfl, rfl, rfl, by decide⟩

/-- C8 amended: each chart has its own categorical mapping — trends:
`High` -> 3, `Medium` -> 2, else 1; opportunities: `High`/`Very High` -> 3,
`Medium` -> 2, else 1; strategies: `High`/`Critical` -> 3, `Medium` -> 2,
else 1 — applied to the first five items of its collection (the
customer-segments chart uses the numeric fields directly). -/
theorem chart_severity_mappings (s : String) (t o stj : Json)
    (ht : t.get "estimated_impact" (.str "Medium") = .str s)
    (ho : o.get "estimated_potential" (.str "Medium") = .str s)
    (hs : stj.get "priority_level" (.str "Medium") = .str s) :
    (trendImpactValue t = if s = "High" then 3 else if s = "Medium" then 2 else 1) ∧
    (oppPotentialValue o =
      if s = "High" ∨ s = "Very High" then 3 else if s = "Medium" then 2 else 1) ∧
    (stratPriorityValue stj =
      if s = "High" ∨ s = "Critical" then 3 else if s = "Medium" then 2 else 1) ∧
    (∀ st : MarketIntelligenceState,
      trendChartValues st = (st.market_trends.take 5).map trendImpactValue) := by
  refine ⟨?_, ?_, ?_, fun _ => rfl⟩
  · unfold trendImpactValue
    rw [ht]
    simp [Json.eqStr]
  · unfold oppPotentialValue
    rw [ho]
    simp [Json.eqStr]
  · unfold stratPriorityValue
    rw [hs]
    simp [Json.eqStr]

theorem chart_severity_mappings_witness :
    trendImpactValue (Json.obj [("estimated_impact", Json.str "High")]) =
      (if "High" = "High" then 3 else if "High" = "Medium" then 2 else 1) :=
  (chart_severity_mappings "High"
    (Json.obj [("estimated_impact", Json.str "High")])
    (Json.obj [("estimated_potential", Json.str "High")])
    (Json.obj [("priority_level", Json.str "High")]) rfl rfl rfl).1

/-- A state reaching the chart stage with a report directory and one trend. -/
def chartBugState : MarketIntelligenceState :=
  { state_id := "s", report_dir := some "R", market_trends := default_trends_list }

/-- C9 (code behaviour at the failing input): after the chart stage, the
"charts" entry of `download_files` holds the whole list of chart paths, not a
single file-path string, although the field is declared `Dict[str, str]`. -/
theorem download_files_charts_not_single_path :
    (generate_charts chartBugState).download_files =
      [("charts", FileVal.pathList ["R/market_trends_impact.png"])] ∧
    FileVal.isSinglePath (FileVal.pathList ["R/market_trends_impact.png"]) = false :=
  ⟨rfl, rfl⟩

/-! ## The orchestrator (`run_market_intelligence_agent`, agent_logic.py 2156-2269)

Everything in the `try` block — state construction with its validators, the
ten-stage workflow and the assembly of the success dictionary's inputs — is a
single `Except String MarketIntelligenceState` parameter; `.error e`
abstracts any exception escaping the block with text `e`.  `error_state_id`
is the `str(uuid4())` drawn before the `try`; `relPath` stands for
`os.path.relpath` against the applicable base directory; `errDir` is the
error-artifact directory when writing it succeeded (the write is itself
wrapped in `try`, so its failure only blanks the two artifact fields). -/

/-- `os.path.basename`. -/
def pyBasename (p : String) : String := (p.splitOn "/").getLastD p

/-- `str.lower()`. -/
def pyLower (s : String) : String := ⟨s.data.map Char.toLower⟩

/-- `str.replace(' ', '_')`. -/
def replaceSpace (s : String) : String :=
  ⟨s.data.map (fun c => if c = ' ' then '_' else c)⟩

/-- The dictionary returned by `run_market_intelligence_agent`. -/
structure AgentRunResult where
  success : Bool
  state_id : String
  report_dir_relative : Option String
  report_filename : Option String
  chart_filenames : List String
  data_json_filename : Option String
  data_csv_filename : Option String
  readme_filename : Option String
  log_filename : Option String
  rag_log_filename : Option String
  vector_store_dirname : Option String
  query_response : Option String
  download_files : Option (List (String × FileVal))
  error : Option String
deriving Repr

/-- `run_market_intelligence_agent` (agent_logic.py 2156-2269): on success a
`success=True` dictionary built from the final state; on any exception a
`success=False` dictionary carrying the synthetic failure identifier and the
exception's text, with the error-artifact fields filled only when the
artifact write succeeded. -/
def run_market_intelligence_agent (error_state_id : String)
    (relPath : String → String) (errDir : Option String)
    (pipelineOutcome : Except String MarketIntelligenceState) : AgentRunResult :=
  match pipelineOutcome with
  | .ok final_state =>
    { success := true
      state_id := final_state.state_id
      report_dir_relative := final_state.report_dir.map relPath
      report_filename := some "market_intelligence_report.md"
      chart_filenames := final_state.chart_paths.map pyBasename
      data_json_filename :=
        some (replaceSpace (pyLower final_state.market_domain) ++ "_data_sources.json")
      data_csv_filename :=
        some (replaceSpace (pyLower final_state.market_domain) ++ "_data_sources.csv")
      readme_filename := some "README.md"
      log_filename := some "market_intelligence.log"
      rag_log_filename := some "market_intelligence_errors.log"
      vector_store_dirname := final_state.vector_store_path.map pyBasename
      query_response := final_state.query_response
      download_files := some final_state.download_files
      error := none }
  | .error e =>
    { success := false
      state_id := error_state_id
      report_dir_relative := errDir.map relPath
      report_filename :=
        errDir.map (fun _ => "ERROR_REPORT_" ++ error_state_id.take 8 ++ ".md")
      chart_filenames := []
      data_json_filename := none
      data_csv_filename := none
      readme_filename := none
      log_filename := none
      rag_log_filename := none
      vector_store_dirname := none
      query_response := none
      download_files := none
      error := some e }

/-- C1: the orchestrator always returns a result object; the success flag is
false exactly when the pipeline raised, and in that case the result carries
the freshly generated synthetic failure identifier and the error's textual
description, while a completed pipeline yields `success=true` with no error
field. -/
theorem orchestrator_failure_boundary (esid : String) (relPath : String → String)
    (errDir : Option String) (outcome : Except String MarketIntelligenceState) :
    ((run_market_intelligence_agent esid relPath errDir outcome).success = false ↔
      ∃ e, outcome = .error e) ∧
    (∀ e, outcome = .error e →
      (run_market_intelligence_agent esid relPath errDir outcome).state_id = esid ∧
      (run_market_intelligence_agent esid relPath errDir outcome).error = some e) ∧
    (∀ fs, outcome = .ok fs →
      (run_market_intelligence_agent esid relPath errDir outcome).success = true ∧
      (run_market_intelligence_agent esid relPath errDir outcome).error = none ∧
      (run_market_intelligence_agent esid relPath errDir outcome).state_id = fs.state_id) := by
  cases outcome with
  | ok fs => simp [run_market_intelligence_agent]
  | error e => simp [run_market_intelligence_agent]

theorem orchestrator_failure_boundary_witness :
    (run_market_intelligence_agent "deadbeef-cafe" id none
        (Except.error "directory creation failed")).success = false ∧
    (run_market_intelligence_agent "deadbeef-cafe" id none
        (Except.error "directory creation failed")).state_id = "deadbeef-cafe" ∧
    (run_market_intelligence_agent "deadbeef-cafe" id none
        (Except.error "directory creation failed")).error =
      some "directory creation failed" :=
  have h := orchestrator_failure_boundary "deadbeef-cafe" id none
    (Except.error "directory creation failed")
  ⟨h.1.mpr ⟨"directory creation failed", rfl⟩,
   (h.2.1 "directory creation failed" rfl).1,
   (h.2.1 "directory creation failed" rfl).2⟩

end MiaApp
